import Mathlib

/-!
Verification of the file-state-machine core of a proteomics pipeline
orchestrator. The development shallowly embeds the string/path
classification logic and the stage orchestration of the Python modules
(folder_structure, convert_raw_files, dia_umpire, clean_unneeded_files,
move_to_processed, search_database) as executable Lean functions over an
explicit workspace state, and proves the behavioural properties stated in
the specification against those functions.
-/

namespace DiaPipe

/-! ## String primitives

Python string operations are modelled on the character list underlying a
Lean String, matching the semantics of str.endswith, str.startswith,
slicing from the right, and os.path.splitext for separator-free names. -/

/-- Python s.endswith(t). -/
def sEndsWith (s t : String) : Bool := t.data.isSuffixOf s.data

/-- Python s.startswith(t). -/
def sStartsWith (s t : String) : Bool := t.data.isPrefixOf s.data

/-- Python s[:-n] for n greater than 0: drop the last n characters. -/
def sDropRight (s : String) (n : Nat) : String :=
  String.mk (s.data.take (s.data.length - n))

/-- Number of characters of a string, as Python len. -/
def sLen (s : String) : Nat := s.data.length

/-- Index of the last dot in a character list, Python str.rfind applied to
a dot. -/
def lastDotIdx : List Char → Option Nat
  | [] => none
  | c :: cs =>
    match lastDotIdx cs with
    | some i => some (i + 1)
    | none => if c = '.' then some 0 else none

/-- Python os.path.splitext(s)[0] for a name without path separators: cut
at the last dot, unless every character before that dot is itself a dot
(leading-dot names keep their extension-less form). -/
def splitextBase (s : String) : String :=
  match lastDotIdx s.data with
  | none => s
  | some i =>
    if (s.data.take i).all (fun c => c = '.') then s
    else String.mk (s.data.take i)

/-! ## Format Converter (convert_raw_files.py)

identify_raw_files splits the raw-directory listing by extension into the
.mzML files (raw_files) and the .raw files (thermo_raw_files);
convert_raw_files then derives the pending set files_to_convert and, when
the Thermo parser is present and the pending set non-empty, invokes the
tool once per pending file. -/

/-- Files of the raw directory listing ending in .mzML, appended to
self.raw_files by identify_raw_files. -/
def identify_mzML (listing : List String) : List String :=
  listing.filter (fun f => sEndsWith f ".mzML")

/-- Files of the raw directory listing ending in .raw, appended to
self.thermo_raw_files by identify_raw_files. -/
def identify_thermoRaw (listing : List String) : List String :=
  listing.filter (fun f => sEndsWith f ".raw")

/-- The list comprehension [f[:-5] for f in self.raw_files]: each .mzML
name with its last five characters removed. -/
def raw_files_base (raw_files : List String) : List String :=
  raw_files.map (fun f => sDropRight f 5)

/-- The loop appending to self.files_to_convert every element of
self.thermo_raw_files that is not a member of self.raw_files_base. Note
the source compares the full .raw filename against extension-less base
names. -/
def files_to_convert (raw_files thermo_raw_files : List String) : List String :=
  thermo_raw_files.filter (fun t => decide (t ∉ raw_files_base raw_files))

/-- The output name thermo_raw[:-4] + ".mzML" passed to the converter. -/
def convertedName (t : String) : String := sDropRight t 4 ++ ".mzML"

/-! ## Workspace Manager (folder_structure.py) -/

/-- Keys of the executables dictionary of executable_setup, in insertion
order. -/
def executableNames : List String :=
  ["java_executable", "dia_umpire_se", "search_gui", "peptide_shaker",
   "thermo_file_parser"]

/-- The loop of executable_setup: a missing executable is appended to
missing_executables unless it is the Thermo parser, whose absence only
logs a warning. The argument lists the executables that resolve to an
existing path. -/
def missing_executables (present : List String) : List String :=
  executableNames.foldl
    (fun acc n =>
      if present.contains n then acc
      else if n = "thermo_file_parser" then acc
      else acc ++ [n]) []

/-- The three mandatory parameter filenames checked by parameter_check,
in dictionary insertion order. -/
def parameterFileNames : List String :=
  ["umpire-se.params", "search.par", "database.fasta"]

/-- The loop of parameter_check: every parameter file absent from the
workspace root is appended to parameter_files_missing. -/
def parameter_files_missing (topFiles : List String) : List String :=
  parameterFileNames.filter (fun p => !(topFiles.contains p))

/-! ## Workspace state

A point-in-time model of the filesystem state the pipeline reads and
writes: the existence flags of the four workspace directories, the file
listings (name and size in bytes) of the raw and processed directories,
the plain files present at the workspace root, and the run-log file. -/

structure FS where
  rawDirExists : Bool
  processedDirExists : Bool
  searchedDirExists : Bool
  reportsDirExists : Bool
  rawListing : List (String × Nat)
  processedListing : List (String × Nat)
  topFiles : List String
  logFilePresent : Bool
deriving DecidableEq

/-- The logging_setup method: the previous run log is removed and the
file handler creates it afresh; nothing else is touched. -/
def logging_setup (fs : FS) : FS := { fs with logFilePresent := true }

/-- The directory_setup method: exits (none) when the raw directory does
not exist; otherwise creates the processed and searched directories when
absent. -/
def directory_setup (fs : FS) : Option FS :=
  if fs.rawDirExists then
    some { fs with processedDirExists := true, searchedDirExists := true }
  else none

/-! ## Deconvolution Runner (dia_umpire.py)

Each unique input file triggers one synchronous invocation via
subprocess.run with check enabled, followed by a rename of the fixed-path
tool log. The outcome of one invocation is abstracted as DiaCall: the run
call raising CalledProcessError, the run call (or the log rename) raising
some other exception, or the run call returning a process with the given
return code while the rename succeeds or fails. -/

inductive DiaCall where
  | raisesCalledProcessError : DiaCall
  | raisesOtherException : DiaCall
  | returns (returncode : Nat) (replaceOk : Bool) : DiaCall
deriving DecidableEq

/-- Whether an invocation outcome reaches the success branch: the run
call returned (check enabled means return code zero, modelled as the
returncode field), the log rename succeeded, and the return code is
zero. -/
def diaSucceeds : DiaCall → Bool
  | DiaCall.returns rc true => rc == 0
  | _ => false

/-- Accumulated per-run record of dia_file_processing: the set of
successfully processed files, the list of failed files, and the files
invoked so far. -/
structure DiaState where
  dia_processed_files : List String
  failed_files : List String
  invoked : List String
deriving DecidableEq

/-- One iteration of the dia_file_processing loop body for one file:
invoke the tool, then either hit an except branch appending to
failed_files, or reach the return-code check, which appends to
failed_files on a non-zero code and otherwise adds the file to the
processed set. -/
def diaStep (call : String → DiaCall) (st : DiaState) (f : String) : DiaState :=
  let st := { st with invoked := st.invoked ++ [f] }
  match call f with
  | DiaCall.raisesCalledProcessError => { st with failed_files := st.failed_files ++ [f] }
  | DiaCall.raisesOtherException => { st with failed_files := st.failed_files ++ [f] }
  | DiaCall.returns rc replaceOk =>
    if replaceOk then
      if rc ≠ 0 then { st with failed_files := st.failed_files ++ [f] }
      else
        { st with
          dia_processed_files :=
            if st.dia_processed_files.contains f then st.dia_processed_files
            else st.dia_processed_files ++ [f] }
    else { st with failed_files := st.failed_files ++ [f] }

/-- The dia_file_processing method: deduplicate the input list, run the
loop, and recompute self.raw_files as the input files not recorded as
failed. Returns the final run record and the recomputed list. -/
def dia_file_processing (call : String → DiaCall) (raw_files : List String) :
    DiaState × List String :=
  let st := (raw_files.dedup).foldl (diaStep call) ⟨[], [], []⟩
  (st, raw_files.filter (fun f => decide (f ∉ st.failed_files)))

/-! ## Artifact Cleaner (clean_unneeded_files.py) -/

/-- The tuple self.unneeded_files of removal suffixes. -/
def unneeded_files : List String :=
  [".DIAWindowsFS", ".RTidxFS", ".ScanClusterMapping_Q1",
   ".ScanClusterMapping_Q2", ".ScanClusterMapping_Q3", ".ScanidxFS",
   ".ScanPosFS", ".ScanRTFS", "_diasetting.ser", "_params.ser"]

/-- A directory entry as seen by one os.listdir pass: its name and
whether os.path.isdir holds for it. -/
structure DirEntry where
  name : String
  isDir : Bool
deriving DecidableEq

/-- Whether one iteration of the cleaning_process loop removes the given
entry: the first branch removes any entry whose name ends with one of the
ten suffixes; the elif branch removes an entry ending in the peak-marker
suffix only when it is a directory (its contents are deleted and the
empty directory removed); every other entry is untouched. -/
def removesEntry (e : DirEntry) : Bool :=
  if unneeded_files.any (fun s => sEndsWith e.name s) then true
  else if sEndsWith e.name "_Peak" then e.isDir
  else false

/-- The cleaning_process method over a directory snapshot: the entries
that remain after the single pass. -/
def cleaning_process (entries : List DirEntry) : List DirEntry :=
  entries.filter (fun e => !removesEntry e)

/-! ## Stage Mover (move_to_processed.py) -/

/-- The list self.move_file_extensions. -/
def move_file_extensions : List String :=
  ["_Q1.mgf", "_Q2.mgf", "_Q3.mgf", "_Q1.mzML", "_Q2.mzML", "_Q3.mzML",
   "_PeakCluster.csv"]

/-- One os.replace from the raw to the processed directory, performed
when the source name exists in the raw listing; an existing destination
of the same name is overwritten. -/
def move_one (fs : FS) (fname : String) : FS :=
  if fs.rawListing.any (fun p => p.1 == fname) then
    { fs with
      rawListing := fs.rawListing.filter (fun p => !(p.1 == fname)),
      processedListing :=
        fs.processedListing.filter (fun p => !(p.1 == fname)) ++
          fs.rawListing.filter (fun p => p.1 == fname) }
  else fs

/-- The move_to_processed method: for each base name derived from the
converted-file list by os.path.splitext, and each of the seven suffixes,
move the matching raw-directory file when present. -/
def move_to_processed (fs : FS) (conv_raw_files : List String) : FS :=
  (conv_raw_files.map splitextBase).foldl
    (fun acc rn =>
      move_file_extensions.foldl (fun acc2 ext => move_one acc2 (rn ++ ext)) acc)
    fs

/-! ## Search Orchestrator (search_database.py)

The selection logic of search_process over a snapshot of the processed
directory (file names with sizes). Quality tiers are the keys of qt_dict. -/

inductive QT where
  | q1 | q2 | q3 | q12 | q13 | q23 | q123
deriving DecidableEq

/-- The qt_dict value for each key: the tier suffix with extension. -/
def qt_dict : QT → String
  | QT.q1 => "_Q1.mgf"
  | QT.q2 => "_Q2.mgf"
  | QT.q3 => "_Q3.mgf"
  | QT.q12 => "_Q1Q2_combined.mgf"
  | QT.q13 => "_Q1Q3_combined.mgf"
  | QT.q23 => "_Q2Q3_combined.mgf"
  | QT.q123 => "_Q1Q2Q3_combined.mgf"

/-- The values of qt_dict in insertion order with the extension removed
(qt_value[:-4]), as scanned by the suffix-stripping loop. -/
def qtStripValues : List String :=
  ["_Q1", "_Q2", "_Q3", "_Q1Q2_combined", "_Q1Q3_combined",
   "_Q2Q3_combined", "_Q1Q2Q3_combined"]

/-- The suffix-stripping loop over qt_dict values: remove the first
matching tier suffix from the base file name, if any. -/
def stripQt (base : String) : String :=
  match qtStripValues.find? (fun s => sEndsWith base s) with
  | some s => sDropRight base (sLen s)
  | none => base

/-- Why a file was recorded as not searched: it carried one of the three
disqualifying markers, or the constructed tier file was empty, or the
constructed tier file did not exist. The reason is the content of the
warning logged at the corresponding append. -/
inductive Reason where
  | marker | empty | missing
deriving DecidableEq

/-- Accumulator of search_process: the to_search set (as an
insertion-ordered duplicate-free list) and the not_searched_files list
paired with the logged reason. -/
structure Sel where
  to_search : List String
  not_searched_files : List (String × Reason)
deriving DecidableEq

/-- The existence and size check on one constructed tier filename: when
the file exists with non-zero size it enters to_search unless already
present; an existing empty file and a missing file are recorded as not
searched with the corresponding reason. -/
def considerTier (snap : List (String × Nat)) (tier : String) (acc : Sel) : Sel :=
  match snap.find? (fun p => decide (p.1 = tier)) with
  | some p =>
    if p.2 > 0 then
      if acc.to_search.contains tier then acc
      else { acc with to_search := acc.to_search ++ [tier] }
    else { acc with not_searched_files := acc.not_searched_files ++ [(tier, Reason.empty)] }
  | none => { acc with not_searched_files := acc.not_searched_files ++ [(tier, Reason.missing)] }

/-- The innermost loop body: for a directory file ending in .mgf and
starting with the current raw name, normalise its base name by stripping
any tier suffix, construct the tier filename for the requested tier and
run the existence and size check. -/
def perFile (snap : List (String × Nat)) (qt : QT) (raw_name : String)
    (acc : Sel) (file : String) : Sel :=
  if sEndsWith file ".mgf" && sStartsWith file raw_name then
    considerTier snap (stripQt (splitextBase file) ++ qt_dict qt) acc
  else acc

/-- The loop over the processed-directory listing for one requested
tier. -/
def perQt (snap : List (String × Nat)) (raw_name : String) (acc : Sel)
    (qt : QT) : Sel :=
  (snap.map Prod.fst).foldl (perFile snap qt raw_name) acc

/-- The outer loop body for one raw name: a name ending in one of the
three disqualifying markers is recorded as not searched outright;
otherwise every requested tier is considered. -/
def perRawName (snap : List (String × Nat)) (qts : List QT) (acc : Sel)
    (raw_name : String) : Sel :=
  if sEndsWith raw_name "_PeakCluster" || sEndsWith raw_name ".cms" ||
      sEndsWith raw_name ".mzML" then
    { acc with not_searched_files := acc.not_searched_files ++ [(raw_name ++ ".mgf", Reason.marker)] }
  else qts.foldl (perQt snap raw_name) acc

/-- The update_raw_names method: extension-less names of the .mgf files
of the processed directory snapshot. -/
def update_raw_names (snap : List (String × Nat)) : List String :=
  ((snap.map Prod.fst).filter (fun f => sEndsWith f ".mgf")).map splitextBase

/-- The selection part of search_process: from the processed-directory
snapshot and the requested tier list, the to_search set and the
not-searched list. -/
def search_process_select (snap : List (String × Nat)) (qts : List QT) : Sel :=
  (update_raw_names snap).foldl (perRawName snap qts) ⟨[], []⟩

/-! ## Pipeline runner (main.py)

The environment collects what the black-box external world contributes
to one run: which executables resolve to an existing path, whether the
converter succeeds on a given pending file, the outcome of one
deconvolution invocation per file, the raw-directory artifacts the
deconvolution tool writes for one successfully processed file, and
whether the single search, PeptideShaker and report-export invocations
return without raising. -/

structure Env where
  execsPresent : List String
  convOk : String → Bool
  diaCall : String → DiaCall
  diaOutputs : String → List (String × Nat)
  searchOk : Bool
  shakerOk : Bool
  reportsOk : Bool

/-- Whether the Thermo parser path exists (os.path.exists on the
conversion tool). -/
def thermoPresent (env : Env) : Bool :=
  env.execsPresent.contains "thermo_file_parser"

/-- Outcome of one whole run: a deliberate sys.exit with the given code
at the given filesystem state, termination by an uncaught exception
propagating out of main (the interpreter then also exits with a non-zero
status) at the given state, or normal completion with exit status
zero. -/
inductive RunResult where
  | exited (code : Nat) (fs : FS) : RunResult
  | crashed (fs : FS) : RunResult
  | finished (fs : FS) : RunResult
deriving DecidableEq

/-- Names of the raw-directory listing (os.listdir of the raw
directory). -/
def rawNames_of (fs : FS) : List String := fs.rawListing.map Prod.fst

/-- The files newly written by the conversion loop: nothing when the
pending set is empty or the Thermo parser is absent, otherwise one .mzML
output per successfully converted pending file. -/
def newly_converted (env : Env) (listing : List String) : List String :=
  let ftc := files_to_convert (identify_mzML listing) (identify_thermoRaw listing)
  if ftc.length > 0 && thermoPresent env then
    (ftc.filter env.convOk).map convertedName
  else []

/-- The content of self.raw_files after identify_raw_files and
convert_raw_files: the pre-existing .mzML files followed by the
successfully converted outputs. -/
def converted_raw_files (env : Env) (listing : List String) : List String :=
  identify_mzML listing ++ newly_converted env listing

/-- The conversion stage of main: identify_raw_files (exiting when the
raw directory is missing), convert_raw_files (writing one output file per
successful conversion), and check_converted_raw_files (exiting when
self.raw_files is empty). An error value carries the state at exit. -/
def convert_stage (env : Env) (fs : FS) : Except FS (FS × List String) :=
  if fs.rawDirExists then
    let listing := rawNames_of fs
    let raw_files := converted_raw_files env listing
    let fs' :=
      { fs with rawListing := fs.rawListing ++ (newly_converted env listing).map (fun f => (f, 1)) }
    if raw_files.length = 0 then Except.error fs' else Except.ok (fs', raw_files)
  else Except.error fs

/-- The deconvolution stage of main: run dia_file_processing, the tool
writing its artifacts into the raw directory for each processed file. -/
def dia_stage (env : Env) (fs : FS) (raw_files : List String) : FS × List String :=
  let (st, rawAfter) := dia_file_processing env.diaCall raw_files
  let outs := st.dia_processed_files.foldl (fun acc f => acc ++ env.diaOutputs f) []
  ({ fs with rawListing := fs.rawListing ++ outs }, rawAfter)

/-- The cleaning stage over the raw-directory file listing: plain files
matching one of the ten suffixes are removed (peak subdirectories are not
part of the file listing). -/
def clean_stage (fs : FS) : FS :=
  { fs with
    rawListing := fs.rawListing.filter (fun p => !(unneeded_files.any (fun s => sEndsWith p.1 s))) }

/-- The search stage: os.makedirs on the searched directory, then the
selection over the processed listing with the currently requested tier
list (the tool invocation and its log touch only the searched
directory). -/
def search_stage (fs : FS) : FS × Sel :=
  ({ fs with searchedDirExists := true },
   search_process_select fs.processedListing [QT.q1])

/-- The report stage: the reports directory is created when absent; the
exporter and the spreadsheet conversion write only inside it. -/
def reports_stage (fs : FS) : FS :=
  { fs with reportsDirExists := true }

/-- The duration block of Summary.write_summary. Guarded by
files_to_convert being non-empty, it subtracts in turn the conversion,
deconvolution, search, PeptideShaker and report-export timestamp pairs
and takes the length of the searched-file list. Each flag says whether
the corresponding end timestamp was set (the start timestamps of the
deconvolution, search, PeptideShaker and report stages are set
unconditionally) and whether search_process returned its list; an unset
value is None, and subtracting or measuring None raises an uncaught
TypeError that terminates the interpreter with a non-zero status. -/
def write_summary_crashes (ftcNonempty conversionTimed searchTimed
    toSearchReturned shakerTimed reportsTimed : Bool) : Bool :=
  ftcNonempty &&
    !(conversionTimed && searchTimed && toSearchReturned && shakerTimed &&
      reportsTimed)

/-- The main function: workspace setup (logging, directories,
executables, parameters), conversion with its two fatal checks,
deconvolution, cleaning, moving, search, PeptideShaker, report export,
then Summary.write_summary. Every sys.exit produces an exited result
carrying the state at that moment. The summary subtracts per-stage
timestamps: the conversion pair is set only when the conversion loop ran
(pending set non-empty and tool present), the search end timestamp and
returned list only when to_search was non-empty and the search
invocation returned, the PeptideShaker end timestamp only when it
received that list and its own invocation returned, and the report end
timestamp only when the export invocation returned — an unset value
crashes the run; otherwise the run finishes with exit status zero. -/
def runPipeline (env : Env) (fs0 : FS) : RunResult :=
  let fs1 := logging_setup fs0
  match directory_setup fs1 with
  | none => RunResult.exited 1 fs1
  | some fs2 =>
    if (missing_executables env.execsPresent).length > 0 then RunResult.exited 1 fs2
    else if (parameter_files_missing fs2.topFiles).length > 0 then RunResult.exited 1 fs2
    else
      match convert_stage env fs2 with
      | Except.error fsE => RunResult.exited 1 fsE
      | Except.ok (fs3, raw_files) =>
        let ftc := files_to_convert (identify_mzML (rawNames_of fs2))
          (identify_thermoRaw (rawNames_of fs2))
        let (fs4, _rawAfter) := dia_stage env fs3 raw_files
        let fs5 := clean_stage fs4
        let fs6 := move_to_processed fs5 raw_files
        let (fs7, sel) := search_stage fs6
        let searchCompleted := !sel.to_search.isEmpty && env.searchOk
        let fs8 := reports_stage fs7
        if write_summary_crashes (ftc.length > 0)
            (ftc.length > 0 && thermoPresent env) searchCompleted
            searchCompleted (searchCompleted && env.shakerOk) env.reportsOk then
          RunResult.crashed fs8
        else RunResult.finished fs8

/-! ## Concrete run instances used by witnesses and counterexamples -/

/-- An environment where every executable resolves, conversion always
succeeds, every deconvolution invocation returns cleanly and the search,
PeptideShaker and report-export invocations all return. -/
def envAllOk : Env :=
  { execsPresent := executableNames
    convOk := fun _ => true
    diaCall := fun _ => DiaCall.returns 0 true
    diaOutputs := fun _ => []
    searchOk := true
    shakerOk := true
    reportsOk := true }

/-- A workspace whose raw directory holds one converted file but whose
root carries none of the three parameter files. -/
def fsNoParams : FS :=
  { rawDirExists := true, processedDirExists := false,
    searchedDirExists := false, reportsDirExists := false,
    rawListing := [("sample1.mzML", 1)], processedListing := [],
    topFiles := [], logFilePresent := false }

/-- The same workspace with all three parameter files present. -/
def fsAllParams : FS := { fsNoParams with topFiles := parameterFileNames }

/-- A processed-directory snapshot with one valid tier-1 fragment and one
zero-byte tier-2 fragment. -/
def snapTiers : List (String × Nat) :=
  [("sample1_Q1.mgf", 512), ("sample1_Q2.mgf", 0)]

/-- An environment where every executable except the Thermo parser
resolves. -/
def envNoThermo : Env :=
  { envAllOk with
    execsPresent := ["java_executable", "dia_umpire_se", "search_gui",
                     "peptide_shaker"] }

/-- An environment like envAllOk where the deconvolution tool
additionally writes a non-empty tier-1 fragment for each processed
file. -/
def envFullRun : Env :=
  { envAllOk with diaOutputs := fun f => [(splitextBase f ++ "_Q1.mgf", 10)] }

/-- A workspace whose raw directory holds one already-converted file next
to one pending raw file, with all three parameter files at the root. -/
def fsPendingRaw : FS :=
  { rawDirExists := true, processedDirExists := false,
    searchedDirExists := false, reportsDirExists := false,
    rawListing := [("sample1.mzML", 1), ("sample2.raw", 5)],
    processedListing := [], topFiles := parameterFileNames,
    logFilePresent := false }

/-- The filesystem state right after logging_setup and directory_setup on
a workspace whose raw directory exists: the run log is reset and the
processed and searched directories exist; nothing else is touched. -/
def workspace_setup_state (fs : FS) : FS :=
  { fs with logFilePresent := true, processedDirExists := true,
            searchedDirExists := true }

/-- The filesystem state at the zero-converted-files exit: workspace
setup plus the conversion outputs written before the count check. -/
def conversion_exit_state (env : Env) (fs : FS) : FS :=
  { workspace_setup_state fs with
    rawListing :=
      fs.rawListing ++ (newly_converted env (rawNames_of fs)).map (fun f => (f, 1)) }

/-! ## Generic fold invariance -/

/-- A property preserved by every step of a left fold holds of the fold
result. -/
theorem foldl_preserve {α β : Type} (P : α → Prop) (f : α → β → α)
    (h : ∀ a b, P a → P (f a b)) :
    ∀ (l : List β) (a : α), P a → P (l.foldl f a)
  | [], _, ha => ha
  | b :: l, a, ha => foldl_preserve P f h l (f a b) (h a b ha)

/-! ## Lemmas on the deconvolution loop -/

/-- One loop iteration invokes the tool on exactly its file. -/
theorem diaStep_invoked (call : String → DiaCall) (st : DiaState) (f : String) :
    (diaStep call st f).invoked = st.invoked ++ [f] := by
  unfold diaStep
  cases call f with
  | raisesCalledProcessError => rfl
  | raisesOtherException => rfl
  | returns rc rok =>
    cases rok with
    | false => rfl
    | true =>
      by_cases h : rc ≠ 0 <;> simp [h]

/-- The whole loop invokes the tool on each element of the folded list,
in order. -/
theorem foldl_diaStep_invoked (call : String → DiaCall) (l : List String) :
    ∀ st : DiaState, (l.foldl (diaStep call) st).invoked = st.invoked ++ l := by
  induction l with
  | nil => intro st; simp
  | cons b l ih =>
    intro st
    simp only [List.foldl_cons, ih, diaStep_invoked, List.append_assoc,
      List.singleton_append]

/-- One loop iteration appends its file to the failed list exactly when
the invocation outcome is not a success. -/
theorem diaStep_failed (call : String → DiaCall) (st : DiaState) (f : String) :
    (diaStep call st f).failed_files =
      st.failed_files ++ (if diaSucceeds (call f) then [] else [f]) := by
  unfold diaStep
  cases hc : call f with
  | raisesCalledProcessError => simp [diaSucceeds]
  | raisesOtherException => simp [diaSucceeds]
  | returns rc rok =>
    cases rok with
    | false => simp [diaSucceeds]
    | true =>
      by_cases h : rc = 0 <;> simp [diaSucceeds, h]

/-- The failed list after the whole loop: the previous failures followed
by the folded files whose invocation fails. -/
theorem foldl_diaStep_failed (call : String → DiaCall) (l : List String) :
    ∀ st : DiaState, (l.foldl (diaStep call) st).failed_files =
      st.failed_files ++ l.filter (fun f => !diaSucceeds (call f)) := by
  induction l with
  | nil => intro st; simp
  | cons b l ih =>
    intro st
    simp only [List.foldl_cons, ih, diaStep_failed]
    by_cases h : diaSucceeds (call b) <;> simp [h, List.filter_cons]

/-- Membership in the processed set after one loop iteration: the set
grows by exactly the iterated file, and only on a successful outcome. -/
theorem diaStep_processed_mem (call : String → DiaCall) (st : DiaState)
    (f g : String) :
    g ∈ (diaStep call st f).dia_processed_files ↔
      g ∈ st.dia_processed_files ∨ (g = f ∧ diaSucceeds (call f) = true) := by
  unfold diaStep
  cases hc : call f with
  | raisesCalledProcessError => simp [diaSucceeds]
  | raisesOtherException => simp [diaSucceeds]
  | returns rc rok =>
    cases rok with
    | false => simp [diaSucceeds]
    | true =>
      by_cases h : rc = 0
      · subst h
        simp only [diaSucceeds, ne_eq, not_true_eq_false, if_false,
          beq_self_eq_true, and_true, reduceIte]
        by_cases hmem : st.dia_processed_files.contains f
        · have hf : f ∈ st.dia_processed_files := by simpa using hmem
          simp only [hmem, if_true]
          constructor
          · exact Or.inl
          · rintro (hg | rfl)
            · exact hg
            · exact hf
        · have hf : f ∉ st.dia_processed_files := by simpa using hmem
          simp [hmem, hf, List.mem_append]
      · simp [diaSucceeds, h]

/-- Membership in the processed set after the whole loop. -/
theorem foldl_diaStep_processed_mem (call : String → DiaCall) (l : List String) :
    ∀ (st : DiaState) (g : String),
      g ∈ (l.foldl (diaStep call) st).dia_processed_files ↔
        g ∈ st.dia_processed_files ∨ (g ∈ l ∧ diaSucceeds (call g) = true) := by
  induction l with
  | nil => intro st g; simp
  | cons b l ih =>
    intro st g
    rw [List.foldl_cons, ih, diaStep_processed_mem]
    constructor
    · rintro ((hg | ⟨rfl, hs⟩) | ⟨hg, hs⟩)
      · exact Or.inl hg
      · exact Or.inr ⟨List.mem_cons_self _ _, hs⟩
      · exact Or.inr ⟨List.mem_cons_of_mem _ hg, hs⟩
    · rintro (hg | ⟨hg, hs⟩)
      · exact Or.inl (Or.inl hg)
      · rcases List.mem_cons.mp hg with rfl | hg
        · exact Or.inl (Or.inr ⟨rfl, hs⟩)
        · exact Or.inr ⟨hg, hs⟩

/-- The run record produced by dia_file_processing, characterised: the
invocation list is the deduplicated input, the failed list is the
deduplicated input filtered to the failing outcomes, and the processed
set holds exactly the input files with successful outcomes. -/
theorem dia_file_processing_spec (call : String → DiaCall) (files : List String) :
    (dia_file_processing call files).1.invoked = files.dedup ∧
    (dia_file_processing call files).1.failed_files =
      files.dedup.filter (fun f => !diaSucceeds (call f)) ∧
    ∀ g, g ∈ (dia_file_processing call files).1.dia_processed_files ↔
      g ∈ files ∧ diaSucceeds (call g) = true := by
  refine ⟨?_, ?_, ?_⟩
  · show (files.dedup.foldl (diaStep call) ⟨[], [], []⟩).invoked = files.dedup
    rw [foldl_diaStep_invoked]
    rfl
  · show (files.dedup.foldl (diaStep call) ⟨[], [], []⟩).failed_files = _
    rw [foldl_diaStep_failed]
    rfl
  · intro g
    show g ∈ (files.dedup.foldl (diaStep call) ⟨[], [], []⟩).dia_processed_files ↔ _
    rw [foldl_diaStep_processed_mem]
    simp [List.mem_dedup]

/-- C1: the claim states that a .raw file whose converted counterpart
(same base name with the .mzML extension) is already present in the raw
directory is excluded from the files to convert. The code evaluated at a
directory holding sample1.raw next to sample1.mzML refutes this: the
comparison pits the full name sample1.raw against the extension-less base
sample1, so the already-converted file is selected again. -/
theorem files_to_convert_includes_already_converted :
    "sample1.mzML" ∈ identify_mzML ["sample1.raw", "sample1.mzML"] ∧
    convertedName "sample1.raw" = "sample1.mzML" ∧
    files_to_convert (identify_mzML ["sample1.raw", "sample1.mzML"])
        (identify_thermoRaw ["sample1.raw", "sample1.mzML"]) = ["sample1.raw"] := by
  decide

/-- C4: the deconvolution input list is deduplicated before processing,
so every filename occurring in the input list is invoked exactly once and
a filename not occurring is never invoked. -/
theorem dia_invocations_deduplicated (call : String → DiaCall)
    (files : List String) (f : String) :
    (dia_file_processing call files).1.invoked.count f =
      if f ∈ files then 1 else 0 := by
  rw [(dia_file_processing_spec call files).1, List.count_dedup]

/-- C6: the deconvolution batch always completes — the tool is invoked on
the whole deduplicated input, every file whose invocation fails (non-zero
exit or exception) lands in the failed list — and the list available to
the next stage holds exactly the input files not recorded as failed. -/
theorem dia_batch_isolation (call : String → DiaCall) (files : List String)
    (f : String) :
    (dia_file_processing call files).1.invoked = files.dedup ∧
    (f ∈ (dia_file_processing call files).2 ↔
      f ∈ files ∧ f ∉ (dia_file_processing call files).1.failed_files) ∧
    (f ∈ files → diaSucceeds (call f) = false →
      f ∈ (dia_file_processing call files).1.failed_files) := by
  obtain ⟨hinv, hfail, -⟩ := dia_file_processing_spec call files
  refine ⟨hinv, ?_, ?_⟩
  · show f ∈ files.filter
        (fun g => decide (g ∉ (dia_file_processing call files).1.failed_files)) ↔ _
    rw [List.mem_filter, decide_eq_true_eq]
  · intro hmem hf
    rw [hfail, List.mem_filter]
    exact ⟨List.mem_dedup.mpr hmem, by simp [hf]⟩

/-- C6 witness: with an environment whose single invocation raises, the
batch completes, the file is recorded as failed, and the
available-for-next-stage list is the input minus the failed file. -/
theorem dia_batch_isolation_witness :
    (dia_file_processing (fun _ => DiaCall.raisesOtherException)
      ["a.mzML", "b.mzML"]).1.invoked = ["a.mzML", "b.mzML"].dedup ∧
    ("a.mzML" ∈ (dia_file_processing (fun _ => DiaCall.raisesOtherException)
        ["a.mzML", "b.mzML"]).2 ↔
      "a.mzML" ∈ ["a.mzML", "b.mzML"] ∧
      "a.mzML" ∉ (dia_file_processing (fun _ => DiaCall.raisesOtherException)
        ["a.mzML", "b.mzML"]).1.failed_files) ∧
    ("a.mzML" ∈ ["a.mzML", "b.mzML"] →
      diaSucceeds DiaCall.raisesOtherException = false →
      "a.mzML" ∈ (dia_file_processing (fun _ => DiaCall.raisesOtherException)
        ["a.mzML", "b.mzML"]).1.failed_files) :=
  dia_batch_isolation (fun _ => DiaCall.raisesOtherException)
    ["a.mzML", "b.mzML"] "a.mzML"

/-- C9: under the contract of the checked subprocess call — a returning
invocation has return code zero — the processed set and the failed list
are disjoint, a failed file can never stem from a returning invocation
whose log rename succeeded (the in-loop non-zero-return-code branch is
unreachable), and every input file whose invocation returns with a
successful log rename is recorded as processed. -/
theorem dia_processed_failed_disjoint (call : String → DiaCall)
    (files : List String)
    (hcheck : ∀ f rc rok, call f = DiaCall.returns rc rok → rc = 0)
    (f : String) :
    (f ∈ (dia_file_processing call files).1.dia_processed_files →
      f ∉ (dia_file_processing call files).1.failed_files) ∧
    (f ∈ (dia_file_processing call files).1.failed_files →
      ∀ rc, call f ≠ DiaCall.returns rc true) ∧
    (∀ rc, f ∈ files → call f = DiaCall.returns rc true →
      f ∈ (dia_file_processing call files).1.dia_processed_files) := by
  obtain ⟨-, hfail, hproc⟩ := dia_file_processing_spec call files
  have hsucc : ∀ rc, call f = DiaCall.returns rc true →
      diaSucceeds (call f) = true := by
    intro rc hc
    have := hcheck f rc true hc
    subst this
    rw [hc]
    rfl
  refine ⟨?_, ?_, ?_⟩
  · intro hp hfm
    have hs := ((hproc f).mp hp).2
    rw [hfail, List.mem_filter] at hfm
    rw [hs] at hfm
    simpa using hfm.2
  · intro hfm rc hc
    rw [hfail, List.mem_filter] at hfm
    rw [hsucc rc hc] at hfm
    simpa using hfm.2
  · intro rc hmem hc
    exact (hproc f).mpr ⟨hmem, hsucc rc hc⟩

/-- C9 witness: with every invocation returning code zero and the rename
succeeding, the processed file is not failed and the returning file is
recorded as processed. -/
theorem dia_processed_failed_disjoint_witness :
    ("a.mzML" ∈ (dia_file_processing (fun _ => DiaCall.returns 0 true)
        ["a.mzML"]).1.dia_processed_files →
      "a.mzML" ∉ (dia_file_processing (fun _ => DiaCall.returns 0 true)
        ["a.mzML"]).1.failed_files) ∧
    ("a.mzML" ∈ (dia_file_processing (fun _ => DiaCall.returns 0 true)
        ["a.mzML"]).1.failed_files →
      ∀ rc, (fun (_ : String) => DiaCall.returns 0 true) "a.mzML" ≠
        DiaCall.returns rc true) ∧
    (∀ rc, "a.mzML" ∈ ["a.mzML"] →
      (fun (_ : String) => DiaCall.returns 0 true) "a.mzML" =
        DiaCall.returns rc true →
      "a.mzML" ∈ (dia_file_processing (fun _ => DiaCall.returns 0 true)
        ["a.mzML"]).1.dia_processed_files) :=
  dia_processed_failed_disjoint (fun _ => DiaCall.returns 0 true) ["a.mzML"]
    (fun _ rc _ h => by cases h; rfl) "a.mzML"

/-! ## Lemmas on the search selection -/

/-- The existence and size check only ever inserts into to_search a file
that is present in the snapshot with non-zero size. -/
theorem considerTier_to_search_sound (snap : List (String × Nat)) (tier : String)
    (acc : Sel) (h : ∀ f ∈ acc.to_search, ∃ n, (f, n) ∈ snap ∧ 0 < n) :
    ∀ f ∈ (considerTier snap tier acc).to_search, ∃ n, (f, n) ∈ snap ∧ 0 < n := by
  intro f hf
  unfold considerTier at hf
  split at hf
  next p hfind =>
    split at hf
    next hpos =>
      split at hf
      · exact h f hf
      · rcases List.mem_append.mp hf with hf | hf
        · exact h f hf
        · have hpm := List.mem_of_find?_eq_some hfind
          have hp1 : p.1 = tier := by
            have hd := List.find?_some hfind
            simpa using hd
          have hft : f = tier := by simpa using hf
          refine ⟨p.2, ?_, hpos⟩
          rw [hft, ← hp1]
          exact hpm
    next => exact h f hf
  next => exact h f hf

/-- The innermost loop body preserves soundness of to_search. -/
theorem perFile_to_search_sound (snap : List (String × Nat)) (qt : QT)
    (raw_name : String) (acc : Sel) (file : String)
    (h : ∀ f ∈ acc.to_search, ∃ n, (f, n) ∈ snap ∧ 0 < n) :
    ∀ f ∈ (perFile snap qt raw_name acc file).to_search,
      ∃ n, (f, n) ∈ snap ∧ 0 < n := by
  unfold perFile
  split
  · exact considerTier_to_search_sound snap _ acc h
  · exact h

/-- The per-tier loop preserves soundness of to_search. -/
theorem perQt_to_search_sound (snap : List (String × Nat)) (raw_name : String)
    (acc : Sel) (qt : QT)
    (h : ∀ f ∈ acc.to_search, ∃ n, (f, n) ∈ snap ∧ 0 < n) :
    ∀ f ∈ (perQt snap raw_name acc qt).to_search, ∃ n, (f, n) ∈ snap ∧ 0 < n := by
  unfold perQt
  exact foldl_preserve _ _ (fun a b ha => perFile_to_search_sound snap qt raw_name a b ha)
    (snap.map Prod.fst) acc h

/-- The outer loop body preserves soundness of to_search. -/
theorem perRawName_to_search_sound (snap : List (String × Nat)) (qts : List QT)
    (acc : Sel) (raw_name : String)
    (h : ∀ f ∈ acc.to_search, ∃ n, (f, n) ∈ snap ∧ 0 < n) :
    ∀ f ∈ (perRawName snap qts acc raw_name).to_search,
      ∃ n, (f, n) ∈ snap ∧ 0 < n := by
  unfold perRawName
  split
  · exact h
  · exact foldl_preserve _ _ (fun a b ha => perQt_to_search_sound snap raw_name a b ha)
      qts acc h

/-- Every member of the selected to_search set exists in the snapshot
with non-zero size. -/
theorem search_process_select_sound (snap : List (String × Nat)) (qts : List QT) :
    ∀ f ∈ (search_process_select snap qts).to_search, ∃ n, (f, n) ∈ snap ∧ 0 < n := by
  unfold search_process_select
  refine foldl_preserve _ _ (fun a b ha => perRawName_to_search_sound snap qts a b ha)
    (update_raw_names snap) ⟨[], []⟩ ?_
  intro f hf
  simp at hf

/-- C5: a tier fragment present in the snapshot with size zero is never
in the selected to_search set; the existence and size check records an
existing zero-byte fragment as not searched with the empty reason, and a
fragment absent from the snapshot with the missing reason. -/
theorem search_zero_size_never_searched (snap : List (String × Nat))
    (qts : List QT) (f : String)
    (hnodup : (snap.map Prod.fst).Nodup) :
    ((f, 0) ∈ snap → f ∉ (search_process_select snap qts).to_search) ∧
    (∀ acc tier p, snap.find? (fun q => decide (q.1 = tier)) = some p → p.2 = 0 →
      considerTier snap tier acc =
        { acc with
          not_searched_files := acc.not_searched_files ++ [(tier, Reason.empty)] }) ∧
    (∀ acc tier, snap.find? (fun q => decide (q.1 = tier)) = none →
      considerTier snap tier acc =
        { acc with
          not_searched_files := acc.not_searched_files ++ [(tier, Reason.missing)] }) := by
  refine ⟨?_, ?_, ?_⟩
  · intro hzero hmem
    obtain ⟨n, hn, hpos⟩ := search_process_select_sound snap qts f hmem
    have heq : (f, 0) = (f, n) :=
      List.inj_on_of_nodup_map hnodup hzero hn rfl
    have : n = 0 := (Prod.mk.injEq f 0 f n).mp heq |>.2 |>.symm
    omega
  · intro acc tier p hfind hp0
    unfold considerTier
    rw [hfind]
    simp [hp0]
  · intro acc tier hfind
    unfold considerTier
    rw [hfind]

/-- C5 witness: in the snapshot holding a 512-byte tier-1 fragment and a
zero-byte tier-2 fragment, the zero-byte fragment is never selected when
tier 2 is requested. -/
theorem search_zero_size_never_searched_witness :
    (("sample1_Q2.mgf", 0) ∈ snapTiers →
      "sample1_Q2.mgf" ∉ (search_process_select snapTiers [QT.q2]).to_search) ∧
    (∀ acc tier p, snapTiers.find? (fun q => decide (q.1 = tier)) = some p →
      p.2 = 0 →
      considerTier snapTiers tier acc =
        { acc with
          not_searched_files := acc.not_searched_files ++ [(tier, Reason.empty)] }) ∧
    (∀ acc tier, snapTiers.find? (fun q => decide (q.1 = tier)) = none →
      considerTier snapTiers tier acc =
        { acc with
          not_searched_files := acc.not_searched_files ++ [(tier, Reason.missing)] }) :=
  search_zero_size_never_searched snapTiers [QT.q2] "sample1_Q2.mgf" (by decide)

/-- C8: the searchable-input selection is deterministic — two calls over
an identical processed-directory snapshot (same names and sizes) with the
same requested tier set return the identical pair of to_search set and
not-searched list. -/
theorem search_select_deterministic (s1 s2 : List (String × Nat))
    (t1 t2 : List QT) (hs : s1 = s2) (ht : t1 = t2) :
    search_process_select s1 t1 = search_process_select s2 t2 := by
  rw [hs, ht]

/-- C8 witness: two calls on the concrete tier snapshot agree. -/
theorem search_select_deterministic_witness :
    search_process_select snapTiers [QT.q1] = search_process_select snapTiers [QT.q1] :=
  search_select_deterministic snapTiers snapTiers [QT.q1] [QT.q1] rfl rfl

/-! ## Cleaning claims -/

/-- C10: the artifact cleaner removes an entry whose name ends in the
peak marker only when that entry is a directory — a regular file ending
in the marker but matching none of the ten removal suffixes survives the
pass, as does every entry matching neither rule, while a peak-marked
directory is removed. -/
theorem cleaning_peak_dirs_only (entries : List DirEntry) (e : DirEntry)
    (hmem : e ∈ entries)
    (hten : unneeded_files.all (fun s => !sEndsWith e.name s) = true) :
    (sEndsWith e.name "_Peak" = true → e.isDir = false →
      e ∈ cleaning_process entries) ∧
    (sEndsWith e.name "_Peak" = false → e ∈ cleaning_process entries) ∧
    (sEndsWith e.name "_Peak" = true → e.isDir = true →
      e ∉ cleaning_process entries) := by
  have hany : unneeded_files.any (fun s => sEndsWith e.name s) = false := by
    rw [List.any_eq_false]
    intro s hs
    have := List.all_eq_true.mp hten s hs
    simpa using this
  refine ⟨?_, ?_, ?_⟩
  · intro hpeak hdir
    refine List.mem_filter.mpr ⟨hmem, ?_⟩
    simp [removesEntry, hany, hpeak, hdir]
  · intro hpeak
    refine List.mem_filter.mpr ⟨hmem, ?_⟩
    simp [removesEntry, hany, hpeak]
  · intro hpeak hdir hin
    have := (List.mem_filter.mp hin).2
    simp [removesEntry, hany, hpeak, hdir] at this

/-- C10 witness: a regular file named x_Peak survives the cleaning pass
of a directory holding it alongside a x_Peak directory, which is
removed. -/
theorem cleaning_peak_dirs_only_witness :
    (sEndsWith (DirEntry.mk "x_Peak" false).name "_Peak" = true →
      (DirEntry.mk "x_Peak" false).isDir = false →
      DirEntry.mk "x_Peak" false ∈
        cleaning_process [DirEntry.mk "x_Peak" false, DirEntry.mk "y_Peak" true]) ∧
    (sEndsWith (DirEntry.mk "x_Peak" false).name "_Peak" = false →
      DirEntry.mk "x_Peak" false ∈
        cleaning_process [DirEntry.mk "x_Peak" false, DirEntry.mk "y_Peak" true]) ∧
    (sEndsWith (DirEntry.mk "x_Peak" false).name "_Peak" = true →
      (DirEntry.mk "x_Peak" false).isDir = true →
      DirEntry.mk "x_Peak" false ∉
        cleaning_process [DirEntry.mk "x_Peak" false, DirEntry.mk "y_Peak" true]) :=
  cleaning_peak_dirs_only [DirEntry.mk "x_Peak" false, DirEntry.mk "y_Peak" true]
    (DirEntry.mk "x_Peak" false) (by decide) (by decide)

/-! ## Run equations of the pipeline -/

/-- A run over a workspace without a raw directory exits 1 right after
logging setup. -/
theorem runPipeline_no_raw (env : Env) (fs0 : FS)
    (h : fs0.rawDirExists = false) :
    runPipeline env fs0 = RunResult.exited 1 (logging_setup fs0) := by
  unfold runPipeline directory_setup
  simp [logging_setup, h]

/-- With the raw directory present, directory setup yields the workspace
setup state. -/
theorem directory_setup_of_raw (fs0 : FS) (h : fs0.rawDirExists = true) :
    directory_setup (logging_setup fs0) = some (workspace_setup_state fs0) := by
  unfold directory_setup logging_setup workspace_setup_state
  simp [h]

/-- A run with a missing mandatory executable exits 1 at the state right
after workspace setup. -/
theorem runPipeline_missing_exec (env : Env) (fs0 : FS)
    (h : fs0.rawDirExists = true)
    (hm : missing_executables env.execsPresent ≠ []) :
    runPipeline env fs0 = RunResult.exited 1 (workspace_setup_state fs0) := by
  have hlen : (missing_executables env.execsPresent).length > 0 :=
    List.length_pos.mpr hm
  unfold runPipeline
  simp only [directory_setup_of_raw fs0 h]
  simp [hlen]

/-- A run with a missing mandatory parameter file (and no missing
executable) exits 1 at the state right after workspace setup. -/
theorem runPipeline_missing_param (env : Env) (fs0 : FS)
    (h : fs0.rawDirExists = true)
    (hm : missing_executables env.execsPresent = [])
    (hp : parameter_files_missing fs0.topFiles ≠ []) :
    runPipeline env fs0 = RunResult.exited 1 (workspace_setup_state fs0) := by
  have hp' : (parameter_files_missing (workspace_setup_state fs0).topFiles).length > 0 :=
    List.length_pos.mpr hp
  unfold runPipeline
  simp only [directory_setup_of_raw fs0 h]
  simp [hm, hp']

/-- With workspace setup complete, the conversion stage of a run over a
raw directory evaluates to its except value. -/
theorem convert_stage_setup (env : Env) (fs0 : FS)
    (h : fs0.rawDirExists = true) :
    convert_stage env (workspace_setup_state fs0) =
      (if (converted_raw_files env (rawNames_of fs0)).length = 0 then
        Except.error (conversion_exit_state env fs0)
      else Except.ok (conversion_exit_state env fs0,
        converted_raw_files env (rawNames_of fs0))) := by
  unfold convert_stage
  simp [h, workspace_setup_state, conversion_exit_state, rawNames_of]

/-- A run with zero files after the conversion stage (and the three
earlier checks passing) exits 1 at the conversion exit state. -/
theorem runPipeline_zero_converted (env : Env) (fs0 : FS)
    (h : fs0.rawDirExists = true)
    (hm : missing_executables env.execsPresent = [])
    (hp : parameter_files_missing fs0.topFiles = [])
    (hc : converted_raw_files env (rawNames_of fs0) = []) :
    runPipeline env fs0 = RunResult.exited 1 (conversion_exit_state env fs0) := by
  have hp0 : parameter_files_missing (workspace_setup_state fs0).topFiles = [] := hp
  unfold runPipeline
  simp only [directory_setup_of_raw fs0 h, convert_stage_setup env fs0 h]
  simp [hm, hp0, hc]

/-- A run passing all four fatal checks never reaches a sys.exit: it
runs every stage and ends in the summary, either crashing there on an
unset timestamp or finishing normally. -/
theorem runPipeline_checks_passed_no_exit (env : Env) (fs0 : FS)
    (h : fs0.rawDirExists = true)
    (hm : missing_executables env.execsPresent = [])
    (hp : parameter_files_missing fs0.topFiles = [])
    (hc : converted_raw_files env (rawNames_of fs0) ≠ []) :
    ∃ fsF, runPipeline env fs0 = RunResult.crashed fsF ∨
      runPipeline env fs0 = RunResult.finished fsF := by
  have hp0 : parameter_files_missing (workspace_setup_state fs0).topFiles = [] := hp
  have hc' : ¬ (converted_raw_files env (rawNames_of fs0)).length = 0 := by
    simpa [List.length_eq_zero] using hc
  unfold runPipeline
  simp only [directory_setup_of_raw fs0 h, convert_stage_setup env fs0 h]
  simp only [hm, hp0, hc', List.length_nil, gt_iff_lt, lt_self_iff_false,
    if_false, reduceIte]
  split
  · exact ⟨_, Or.inl rfl⟩
  · exact ⟨_, Or.inr rfl⟩

/-- Every name in the missing-executables fold comes from the folded list,
differs from the Thermo parser, and does not resolve to an existing
path. -/
theorem missing_executables_mem (present : List String) :
    ∀ (l acc : List String) (n : String),
      n ∈ l.foldl (fun acc n =>
        if present.contains n then acc
        else if n = "thermo_file_parser" then acc else acc ++ [n]) acc →
      n ∈ acc ∨ (n ∈ l ∧ n ≠ "thermo_file_parser" ∧ present.contains n = false) := by
  intro l
  induction l with
  | nil => intro acc n h; exact Or.inl h
  | cons b l ih =>
    intro acc n h
    rw [List.foldl_cons] at h
    rcases ih _ n h with hstep | ⟨hl, hne, hcf⟩
    · by_cases hcb : present.contains b
      · rw [if_pos hcb] at hstep
        exact Or.inl hstep
      · rw [if_neg hcb] at hstep
        by_cases hbt : b = "thermo_file_parser"
        · rw [if_pos hbt] at hstep
          exact Or.inl hstep
        · rw [if_neg hbt] at hstep
          rcases List.mem_append.mp hstep with hstep | hstep
          · exact Or.inl hstep
          · have hnb : n = b := by simpa using hstep
            subst hnb
            exact Or.inr ⟨List.mem_cons_self _ _, hbt, by simpa using hcb⟩
    · exact Or.inr ⟨List.mem_cons_of_mem _ hl, hne, hcf⟩

/-! ## Error-handling claims on the whole run -/

/-- C2 counterexample: with the raw directory present, all executables
resolving and no parameter file at the root, the run does exit with a
non-zero status, but only after the workspace setup has already created
the processed directory — a file-system side effect preceding the exit,
contrary to the claim that no directory is created. -/
theorem param_exit_side_effect_counterexample :
    parameter_files_missing fsNoParams.topFiles ≠ [] ∧
    runPipeline envAllOk fsNoParams =
      RunResult.exited 1 (workspace_setup_state fsNoParams) ∧
    fsNoParams.processedDirExists = false ∧
    (workspace_setup_state fsNoParams).processedDirExists = true := by
  decide

/-- C2 (amended): with a mandatory parameter file absent at the workspace
root, the process exits non-zero at the parameter check, before the
conversion stage and every later stage runs; the only file-system side
effects before the exit are the workspace setup's own (run-log reset and
creation of the processed and searched directories) — the raw and
processed listings, the root files and the reports directory are
untouched. -/
theorem param_missing_exits_before_any_stage (env : Env) (fs0 : FS)
    (hraw : fs0.rawDirExists = true)
    (hm : missing_executables env.execsPresent = [])
    (hp : parameter_files_missing fs0.topFiles ≠ []) :
    runPipeline env fs0 = RunResult.exited 1 (workspace_setup_state fs0) ∧
    (workspace_setup_state fs0).rawListing = fs0.rawListing ∧
    (workspace_setup_state fs0).processedListing = fs0.processedListing ∧
    (workspace_setup_state fs0).topFiles = fs0.topFiles ∧
    (workspace_setup_state fs0).reportsDirExists = fs0.reportsDirExists :=
  ⟨runPipeline_missing_param env fs0 hraw hm hp, rfl, rfl, rfl, rfl⟩

/-- C2 witness: the amended claim evaluated on the concrete workspace
without parameter files. -/
theorem param_missing_exits_before_any_stage_witness :
    runPipeline envAllOk fsNoParams =
      RunResult.exited 1 (workspace_setup_state fsNoParams) ∧
    (workspace_setup_state fsNoParams).rawListing = fsNoParams.rawListing ∧
    (workspace_setup_state fsNoParams).processedListing =
      fsNoParams.processedListing ∧
    (workspace_setup_state fsNoParams).topFiles = fsNoParams.topFiles ∧
    (workspace_setup_state fsNoParams).reportsDirExists =
      fsNoParams.reportsDirExists :=
  param_missing_exits_before_any_stage envAllOk fsNoParams (by decide)
    (by decide) (by decide)

/-- C3: the claim states that the process terminates non-zero exactly on
the four fatal precondition failures, in each case immediately after its
check. The code evaluated on a workspace that passes all four checks
refutes the only-if direction: with the Thermo parser absent, one
pending raw file and one already-converted file, every stage runs to
completion, yet Summary.write_summary enters its duration block (the
pending set is non-empty) and subtracts the conversion timestamps that
were never set because the conversion loop was skipped — the uncaught
TypeError terminates the interpreter with a non-zero status. The same
workspace with the parser present, the deconvolution tool emitting a
non-empty tier-1 fragment and every invocation returning finishes with
exit status zero. -/
theorem pipeline_crashes_in_summary_beyond_four_checks :
    fsPendingRaw.rawDirExists = true ∧
    missing_executables envNoThermo.execsPresent = [] ∧
    parameter_files_missing fsPendingRaw.topFiles = [] ∧
    converted_raw_files envNoThermo (rawNames_of fsPendingRaw) ≠ [] ∧
    files_to_convert (identify_mzML (rawNames_of fsPendingRaw))
      (identify_thermoRaw (rawNames_of fsPendingRaw)) ≠ [] ∧
    thermoPresent envNoThermo = false ∧
    (∃ fsC, runPipeline envNoThermo fsPendingRaw = RunResult.crashed fsC) ∧
    (∃ fsF, runPipeline envFullRun fsPendingRaw = RunResult.finished fsF) :=
  ⟨by decide, by decide, by decide, by decide, by decide, by decide,
   ⟨_, rfl⟩, ⟨_, rfl⟩⟩

/-- C7: the Thermo parser is never in the missing-executables list (its
absence only logs a warning), the run does not exit when the four
mandatory executables resolve, the conversion loop performs no work (no
output written, the accumulated list unchanged) when the pending set is
empty or the tool path does not exist, and with the tool absent the
already-converted files still feed the downstream stages. -/
theorem thermo_absent_not_fatal (present : List String) (env : Env)
    (listing : List String) :
    ("thermo_file_parser" ∉ missing_executables present) ∧
    ((∀ n ∈ ["java_executable", "dia_umpire_se", "search_gui", "peptide_shaker"],
        present.contains n = true) → missing_executables present = []) ∧
    ((thermoPresent env = false ∨
        files_to_convert (identify_mzML listing) (identify_thermoRaw listing) = []) →
      newly_converted env listing = [] ∧
      converted_raw_files env listing = identify_mzML listing) ∧
    (thermoPresent env = false → identify_mzML listing ≠ [] →
      converted_raw_files env listing ≠ []) := by
  have hpart3 : (thermoPresent env = false ∨
      files_to_convert (identify_mzML listing) (identify_thermoRaw listing) = []) →
      newly_converted env listing = [] ∧
      converted_raw_files env listing = identify_mzML listing := by
    rintro (h | h)
    · constructor
      · unfold newly_converted
        simp [h]
      · unfold converted_raw_files newly_converted
        simp [h]
    · constructor
      · unfold newly_converted
        simp [h]
      · unfold converted_raw_files newly_converted
        simp [h]
  refine ⟨?_, ?_, hpart3, ?_⟩
  · intro h
    rcases missing_executables_mem present executableNames [] _ h with h0 | ⟨_, hne, _⟩
    · cases h0
    · exact hne rfl
  · intro hall
    rw [List.eq_nil_iff_forall_not_mem]
    intro n hn
    rcases missing_executables_mem present executableNames [] n hn with h0 | ⟨h5, hne, hcf⟩
    · cases h0
    · have : n = "java_executable" ∨ n = "dia_umpire_se" ∨ n = "search_gui" ∨
          n = "peptide_shaker" ∨ n = "thermo_file_parser" := by
        simpa [executableNames] using h5
      rcases this with rfl | rfl | rfl | rfl | rfl
      · rw [hall _ (by simp)] at hcf
        cases hcf
      · rw [hall _ (by simp)] at hcf
        cases hcf
      · rw [hall _ (by simp)] at hcf
        cases hcf
      · rw [hall _ (by simp)] at hcf
        cases hcf
      · exact hne rfl
  · intro hth hmz
    have := hpart3 (Or.inl hth)
    rw [this.2]
    exact hmz

/-- C7 witness: with only the Thermo parser absent, the missing list is
empty, no conversion work happens on a listing with a pending raw file,
and the pre-existing converted file still reaches downstream stages. -/
theorem thermo_absent_not_fatal_witness :
    missing_executables envNoThermo.execsPresent = [] ∧
    (newly_converted envNoThermo ["sample1.mzML", "sample2.raw"] = [] ∧
      converted_raw_files envNoThermo ["sample1.mzML", "sample2.raw"] =
        identify_mzML ["sample1.mzML", "sample2.raw"]) ∧
    converted_raw_files envNoThermo ["sample1.mzML", "sample2.raw"] ≠ [] :=
  ⟨(thermo_absent_not_fatal envNoThermo.execsPresent envNoThermo
      ["sample1.mzML", "sample2.raw"]).2.1 (by decide),
   (thermo_absent_not_fatal envNoThermo.execsPresent envNoThermo
      ["sample1.mzML", "sample2.raw"]).2.2.1 (Or.inl (by decide)),
   (thermo_absent_not_fatal envNoThermo.execsPresent envNoThermo
      ["sample1.mzML", "sample2.raw"]).2.2.2 (by decide) (by decide)⟩

end DiaPipe
